import Mathlib

/-!
Shallow embedding of the VocalHire interview backend.

The definitions below translate, function by function, the Python sources:
  backend/app/models/schemas.py        (data model)
  backend/app/agents/interviewer_agent.py  (question catalog, turn controller)
  backend/app/services/gemini_service.py   (completeness-oracle wrapper)
  backend/app/services/feedback_service.py (feedback compiler)
  backend/app/main.py                      (websocket conversation loop)

Python `int` is modelled as `Int`; Python list indexing keeps its negative
wrap-around semantics where the source indexes a list with an `int`;
a raised exception that escapes a function is modelled by `Except Unit`.
`datetime` values carry no logic here and are modelled as `Unit`.
The two LLM calls are external: each function that makes one takes the
outcome of that call (parsed dict, or error for any raised exception) as
an explicit argument.
-/

namespace VocalHire

/-- schemas.QuestionCategory: the 8 fixed interview categories. -/
inductive QuestionCategory where
  | INTRODUCTION
  | MOTIVATION
  | INDUSTRY_EXPERIENCE
  | LEARNINGS
  | STRENGTHS_WEAKNESSES
  | FUTURE_VISION
  | UNIQUE_VALUE
  | AVAILABILITY
  deriving DecidableEq, Repr

/-- schemas.InterviewQuestion. -/
structure InterviewQuestion where
  category : QuestionCategory
  question_text : String
  expected_coverage : Option (List String) := none
  deriving DecidableEq, Repr

/-- schemas.InterviewAnswer (timestamp carries no logic, dropped). -/
structure InterviewAnswer where
  question_category : QuestionCategory
  question_text : String
  answer_text : String
  follow_up_count : Int := 0
  is_complete : Bool := false
  deriving DecidableEq, Repr

/-- schemas.InterviewState. `current_question_index` is a Python `int`,
hence `Int`; `started_at`/`completed_at` are datetimes modelled as `Unit`. -/
structure InterviewState where
  session_id : String
  current_question_index : Int := 0
  answers : List InterviewAnswer := []
  is_completed : Bool := false
  started_at : Unit := ()
  completed_at : Option Unit := none
  deriving DecidableEq, Repr

/-- The parsed JSON dict returned by the completeness oracle
(gemini_service.validate_answer_completeness). Keys may be absent,
which `dict.get` covers with a default, hence `Option` fields. -/
structure OracleDict where
  is_complete : Option Bool := none
  missing_points : List String := []
  follow_up : Option String := none
  deriving DecidableEq, Repr

/-- interviewer_agent.InterviewerAgent.QUESTIONS: the fixed 8-question catalog. -/
def QUESTIONS : List InterviewQuestion :=
  [ { category := .INTRODUCTION,
      question_text := "Tell me something about yourself (Include your name, family background, educational background, and whether you are an earning member of the family.)",
      expected_coverage := some ["name", "family background", "educational background", "earning member status"] },
    { category := .MOTIVATION,
      question_text := "What motivated you to pursue a career in this field?",
      expected_coverage := none },
    { category := .INDUSTRY_EXPERIENCE,
      question_text := "How many internships or industrial training programs have you completed so far? (Please include the names, durations, and the departments where you were trained.)",
      expected_coverage := some ["number of internships", "names of organizations", "durations", "departments"] },
    { category := .LEARNINGS,
      question_text := "Tell me five things you have learned from the internships",
      expected_coverage := none },
    { category := .STRENGTHS_WEAKNESSES,
      question_text := "Tell me two positive qualities about yourself and two areas where you think you need improvement.",
      expected_coverage := none },
    { category := .FUTURE_VISION,
      question_text := "Where do you see yourself in five years?",
      expected_coverage := none },
    { category := .UNIQUE_VALUE,
      question_text := "Give me a strong reason why I should hire you and how you are different from other candidates.",
      expected_coverage := none },
    { category := .AVAILABILITY,
      question_text := "Are you available to start work immediately, or do you need time to complete other commitments?",
      expected_coverage := none } ]

/-- interviewer_agent.InterviewerAgent.max_follow_ups. -/
def max_follow_ups : Int := 2

/-- Python list subscript `l[i]` for an `int` index: non-negative indexes
from the front, negative indexes wrap from the end, anything out of range
raises IndexError (`Except.error`). -/
def pyListGet (l : List InterviewQuestion) (i : Int) : Except Unit InterviewQuestion :=
  if 0 ≤ i then
    match l.get? i.toNat with
    | some q => .ok q
    | none => .error ()
  else
    match l.get? (i + l.length).toNat, decide (0 ≤ i + l.length) with
    | some q, true => .ok q
    | _, _ => .error ()

/-- interviewer_agent.InterviewerAgent.get_current_question:
returns None once the index passes the catalog length, else the catalog
entry at the (Python-indexed) current position. -/
def get_current_question (state : InterviewState) : Except Unit (Option InterviewQuestion) :=
  if state.current_question_index ≥ (QUESTIONS.length : Int) then
    .ok none
  else
    match pyListGet QUESTIONS state.current_question_index with
    | .ok q => .ok (some q)
    | .error e => .error e

/-- interviewer_agent.InterviewerAgent._get_or_create_answer, acting on the
`state.answers` list: scan for the first record of the question category;
append the raw text to it (single-space separated) when found, otherwise
append a fresh record at the end. Returns the updated list, the merged or
created record, and its position in the updated list. -/
def mergeAnswer (answers : List InterviewAnswer) (question : InterviewQuestion)
    (new_answer_text : String) : List InterviewAnswer × InterviewAnswer × Nat :=
  match answers with
  | [] =>
    let new_answer : InterviewAnswer :=
      { question_category := question.category,
        question_text := question.question_text,
        answer_text := new_answer_text,
        follow_up_count := 0,
        is_complete := false }
    ([new_answer], new_answer, 0)
  | a :: rest =>
    if a.question_category = question.category then
      let merged := { a with answer_text := a.answer_text ++ " " ++ new_answer_text }
      (merged :: rest, merged, 0)
    else
      let r := mergeAnswer rest question new_answer_text
      (a :: r.1, r.2.1, r.2.2 + 1)

/-- The action component of the dict returned by validate_and_respond. -/
inductive Action where
  | next_question
  | follow_up
  | complete
  deriving DecidableEq, Repr

/-- The dict returned by interviewer_agent.InterviewerAgent.validate_and_respond. -/
structure TurnResult where
  action : Action
  message : String
  state : InterviewState
  question_category : Option QuestionCategory := none
  deriving DecidableEq, Repr

/-- interviewer_agent.InterviewerAgent.validate_and_respond. The oracle
outcome (the dict produced by gemini.validate_answer_completeness) is passed
in as `validation`. Record mutation through the aliased `existing_answer`
reference is rendered as updating the merged record at its list position. -/
def validate_and_respond (state : InterviewState) (user_answer : String)
    (validation : OracleDict) : Except Unit TurnResult :=
  match get_current_question state with
  | .error e => .error e
  | .ok none =>
    .ok { action := .complete,
          message := "Thank you for completing all the questions!",
          state := state }
  | .ok (some current_question) =>
    let m := mergeAnswer state.answers current_question user_answer
    let existing_answer := { m.2.1 with is_complete := validation.is_complete.getD true }
    let answers1 := m.1.set m.2.2 existing_answer
    if existing_answer.is_complete || existing_answer.follow_up_count ≥ max_follow_ups then
      let state1 := { state with answers := answers1,
                                 current_question_index := state.current_question_index + 1 }
      match get_current_question state1 with
      | .error e => .error e
      | .ok (some next_question) =>
        .ok { action := .next_question,
              message := next_question.question_text,
              state := state1,
              question_category := some next_question.category }
      | .ok none =>
        .ok { action := .complete,
              message := "Thank you for completing all the questions! I\x27m now preparing your feedback.",
              state := { state1 with is_completed := true } }
    else
      let bumped := { existing_answer with follow_up_count := existing_answer.follow_up_count + 1 }
      let answers2 := answers1.set m.2.2 bumped
      .ok { action := .follow_up,
            message := validation.follow_up.getD "Could you tell me more about that?",
            state := { state with answers := answers2 },
            question_category := some current_question.category }

/-- gemini_service.GeminiService.validate_answer_completeness: the LLM call
plus JSON parse either yields a dict or raises; any raised exception is
caught and replaced by the fail-open dict
`\x7b is_complete: true, missing_points: [], follow_up: "" \x7d`. -/
def validate_answer_completeness (llm_outcome : Except Unit OracleDict) : OracleDict :=
  match llm_outcome with
  | .ok result => result
  | .error _ =>
    { is_complete := some true,
      missing_points := [],
      follow_up := some "" }

/-- schemas.FeedbackSection. -/
structure FeedbackSection where
  title : String
  content : String
  score : Option Int := none
  deriving DecidableEq, Repr

/-- schemas.InterviewFeedback (generated_at modelled as Unit). -/
structure InterviewFeedback where
  session_id : String
  overall_assessment : String
  strengths : List String
  areas_for_improvement : List String
  specific_suggestions : List String
  encouragement : String
  category_feedback : List FeedbackSection := []
  generated_at : Unit := ()
  deriving DecidableEq, Repr

/-- The parsed JSON dict produced by the feedback LLM call
(feedback_service.generate_feedback); keys may be absent. -/
structure FeedbackData where
  overall_assessment : Option String := none
  strengths : Option (List String) := none
  areas_for_improvement : Option (List String) := none
  specific_suggestions : Option (List String) := none
  encouragement : Option String := none
  deriving DecidableEq, Repr

/-- Python `category.value.replace(underscore, space).title()` applied to the
8 enum values, as used in feedback_service. -/
def categoryTitle : QuestionCategory → String
  | .INTRODUCTION => "Introduction"
  | .MOTIVATION => "Motivation"
  | .INDUSTRY_EXPERIENCE => "Industry Experience"
  | .LEARNINGS => "Learnings"
  | .STRENGTHS_WEAKNESSES => "Strengths Weaknesses"
  | .FUTURE_VISION => "Future Vision"
  | .UNIQUE_VALUE => "Unique Value"
  | .AVAILABILITY => "Availability"

/-- feedback_service.FeedbackService._generate_category_feedback: one section
per answer, content keyed on whether the answer exceeds 100 characters. -/
def generate_category_feedback (answers : List InterviewAnswer) : List FeedbackSection :=
  answers.map fun answer =>
    { title := categoryTitle answer.question_category,
      content :=
        if answer.answer_text.length > 100 then
          "You addressed this question with good detail."
        else
          "You addressed this question with a brief response.",
      score := none }

/-- feedback_service.FeedbackService._generate_fallback_feedback: the fixed
feedback value substituted when the LLM call or JSON parse fails. -/
def generate_fallback_feedback (session_id : String) (_answers : List InterviewAnswer) :
    InterviewFeedback :=
  { session_id := session_id,
    overall_assessment := "Thank you for completing the mock interview. You showed good effort in answering all questions.",
    strengths :=
      [ "Completed all interview questions",
        "Showed willingness to participate",
        "Provided thoughtful responses" ],
    areas_for_improvement :=
      [ "Try to provide more detailed responses",
        "Include specific examples when possible",
        "Structure your answers clearly" ],
    specific_suggestions :=
      [ "Practice the STAR method (Situation, Task, Action, Result) for behavioral questions",
        "Prepare specific examples from your experience beforehand",
        "Take a moment to organize your thoughts before answering" ],
    encouragement := "Keep practicing and you will continue to improve. Every interview is a learning opportunity!",
    category_feedback := [] }

/-- feedback_service.FeedbackService.generate_feedback. The LLM call plus
JSON parse either yields a dict or raises (`llm_outcome`); on success the
feedback object is assembled from the dict with empty-string/empty-list
defaults, on any exception the fixed fallback is returned. -/
def generate_feedback (session_id : String) (answers : List InterviewAnswer)
    (llm_outcome : Except Unit FeedbackData) : InterviewFeedback :=
  match llm_outcome with
  | .ok feedback_data =>
    { session_id := session_id,
      overall_assessment := feedback_data.overall_assessment.getD "",
      strengths := feedback_data.strengths.getD [],
      areas_for_improvement := feedback_data.areas_for_improvement.getD [],
      specific_suggestions := feedback_data.specific_suggestions.getD [],
      encouragement := feedback_data.encouragement.getD "",
      category_feedback := generate_category_feedback answers }
  | .error _ => generate_fallback_feedback session_id answers

/-- The fresh state built at websocket connection time (main.interview_websocket). -/
def init_state (session_id : String) : InterviewState :=
  { session_id := session_id,
    current_question_index := 0,
    answers := [],
    is_completed := false }

/-- main.interview_websocket, conversation loop: each element of the input
list is one received client message, reduced to its extracted answer text
together with the oracle outcome the turn would observe. Empty/blank and
oversized answers are rejected without touching the state; a turn whose
action is complete triggers the (single) feedback-compile call and breaks
out of the loop. Returns the final state and the number of
feedback-compile calls made. -/
def interview_loop (state : InterviewState) :
    List (String × OracleDict) → Except Unit (InterviewState × Nat)
  | [] => .ok (state, 0)
  | (answer_text, v) :: rest =>
    if answer_text.isEmpty || answer_text.toList.all (fun c => c.isWhitespace) then
      interview_loop state rest
    else if answer_text.length > 2000 then
      interview_loop state rest
    else
      match validate_and_respond state answer_text v with
      | .error e => .error e
      | .ok result =>
        match result.action with
        | .complete =>
          .ok ({ result.state with is_completed := true, completed_at := some () }, 1)
        | _ =>
          match interview_loop result.state rest with
          | .error e => .error e
          | .ok p => .ok p

/-- States reachable by the turn controller: the fresh session state, plus
any state produced by a successful validate_and_respond turn from a
reachable state, under an arbitrary submitted answer and oracle dict. -/
inductive Reachable : InterviewState → Prop where
  | init (session_id : String) : Reachable (init_state session_id)
  | step {s : InterviewState} {a : String} {v : OracleDict} {r : TurnResult} :
      Reachable s → validate_and_respond s a v = .ok r → Reachable r.state

/-! ### Basic facts about the catalog and the answer aggregator -/

theorem QUESTIONS_length : QUESTIONS.length = 8 := rfl

/-- Number of answer records carrying a given category. -/
def countCat : List InterviewAnswer → QuestionCategory → Nat
  | [], _ => 0
  | a :: l, c => (if a.question_category = c then 1 else 0) + countCat l c

/-- The record the aggregator creates when no record of the category exists. -/
def freshRecord (question : InterviewQuestion) (new_answer_text : String) : InterviewAnswer :=
  { question_category := question.category,
    question_text := question.question_text,
    answer_text := new_answer_text,
    follow_up_count := 0,
    is_complete := false }

theorem mergeAnswer_nil (q : InterviewQuestion) (t : String) :
    mergeAnswer [] q t = ([freshRecord q t], freshRecord q t, 0) := rfl

theorem mergeAnswer_cons_pos {a : InterviewQuestion} (b : InterviewAnswer)
    (rest : List InterviewAnswer) (t : String) (hc : b.question_category = a.category) :
    mergeAnswer (b :: rest) a t =
      ({ b with answer_text := b.answer_text ++ " " ++ t } :: rest,
       { b with answer_text := b.answer_text ++ " " ++ t }, 0) := by
  simp only [mergeAnswer]
  rw [if_pos hc]

theorem mergeAnswer_cons_neg {a : InterviewQuestion} (b : InterviewAnswer)
    (rest : List InterviewAnswer) (t : String) (hc : ¬ b.question_category = a.category) :
    mergeAnswer (b :: rest) a t =
      (b :: (mergeAnswer rest a t).1, (mergeAnswer rest a t).2.1,
       (mergeAnswer rest a t).2.2 + 1) := by
  simp only [mergeAnswer]
  rw [if_neg hc]

theorem merge_get (l : List InterviewAnswer) (q : InterviewQuestion) (t : String) :
    (mergeAnswer l q t).1[(mergeAnswer l q t).2.2]? = some (mergeAnswer l q t).2.1 := by
  induction l with
  | nil => rfl
  | cons b rest ih =>
    by_cases hc : b.question_category = q.category
    · rw [mergeAnswer_cons_pos b rest t hc]
      simp
    · rw [mergeAnswer_cons_neg b rest t hc]
      simpa using ih

theorem merge_idx_lt (l : List InterviewAnswer) (q : InterviewQuestion) (t : String) :
    (mergeAnswer l q t).2.2 < (mergeAnswer l q t).1.length := by
  have h := merge_get l q t
  exact (List.getElem?_eq_some.mp h).1

theorem merge_category (l : List InterviewAnswer) (q : InterviewQuestion) (t : String) :
    (mergeAnswer l q t).2.1.question_category = q.category := by
  induction l with
  | nil => rfl
  | cons b rest ih =>
    by_cases hc : b.question_category = q.category
    · rw [mergeAnswer_cons_pos b rest t hc]
      exact hc
    · rw [mergeAnswer_cons_neg b rest t hc]
      exact ih

theorem merge_forall {P : InterviewAnswer → Prop} (l : List InterviewAnswer)
    (q : InterviewQuestion) (t : String)
    (hmod : ∀ a, P a → P { a with answer_text := a.answer_text ++ " " ++ t })
    (hnew : P (freshRecord q t)) (hl : ∀ a ∈ l, P a) :
    (∀ a ∈ (mergeAnswer l q t).1, P a) ∧ P (mergeAnswer l q t).2.1 := by
  induction l with
  | nil =>
    rw [mergeAnswer_nil]
    refine ⟨?_, hnew⟩
    intro a ha
    rw [List.mem_singleton] at ha
    exact ha ▸ hnew
  | cons b rest ih =>
    have hb := hl b (List.mem_cons_self b rest)
    have hrest : ∀ a ∈ rest, P a := fun a ha => hl a (List.mem_cons_of_mem b ha)
    by_cases hc : b.question_category = q.category
    · rw [mergeAnswer_cons_pos b rest t hc]
      refine ⟨?_, hmod b hb⟩
      intro a ha
      rcases List.mem_cons.mp ha with rfl | ha
      · exact hmod b hb
      · exact hrest a ha
    · obtain ⟨ih1, ih2⟩ := ih hrest
      rw [mergeAnswer_cons_neg b rest t hc]
      refine ⟨?_, ih2⟩
      intro a ha
      rcases List.mem_cons.mp ha with rfl | ha
      · exact hb
      · exact ih1 a ha

theorem merge_of_not_mem (l : List InterviewAnswer) (q : InterviewQuestion) (t : String)
    (h : ∀ a ∈ l, a.question_category ≠ q.category) :
    mergeAnswer l q t = (l ++ [freshRecord q t], freshRecord q t, l.length) := by
  induction l with
  | nil => rfl
  | cons b rest ih =>
    have hb := h b (List.mem_cons_self b rest)
    have hrest : ∀ x ∈ rest, x.question_category ≠ q.category :=
      fun x hx => h x (List.mem_cons_of_mem b hx)
    rw [mergeAnswer_cons_neg b rest t hb, ih hrest]
    simp

theorem merge_length_of_mem (l : List InterviewAnswer) (q : InterviewQuestion) (t : String)
    (h : ∃ a ∈ l, a.question_category = q.category) :
    (mergeAnswer l q t).1.length = l.length := by
  induction l with
  | nil => simp at h
  | cons b rest ih =>
    by_cases hc : b.question_category = q.category
    · rw [mergeAnswer_cons_pos b rest t hc]
      simp
    · have hx : ∃ x ∈ rest, x.question_category = q.category := by
        rcases h with ⟨x, hx, hxc⟩
        rcases List.mem_cons.mp hx with rfl | hx
        · exact absurd hxc hc
        · exact ⟨x, hx, hxc⟩
      rw [mergeAnswer_cons_neg b rest t hc]
      simp [ih hx]

theorem countCat_append (l1 l2 : List InterviewAnswer) (c : QuestionCategory) :
    countCat (l1 ++ l2) c = countCat l1 c + countCat l2 c := by
  induction l1 with
  | nil => simp [countCat]
  | cons b rest ih =>
    show (if b.question_category = c then 1 else 0) + countCat (rest ++ l2) c
        = ((if b.question_category = c then 1 else 0) + countCat rest c) + countCat l2 c
    rw [ih]
    omega

theorem merge_countCat_of_mem (l : List InterviewAnswer) (q : InterviewQuestion) (t : String)
    (h : ∃ a ∈ l, a.question_category = q.category) (c : QuestionCategory) :
    countCat (mergeAnswer l q t).1 c = countCat l c := by
  induction l with
  | nil => simp at h
  | cons b rest ih =>
    by_cases hc : b.question_category = q.category
    · rw [mergeAnswer_cons_pos b rest t hc]
      rfl
    · have hx : ∃ x ∈ rest, x.question_category = q.category := by
        rcases h with ⟨x, hx, hxc⟩
        rcases List.mem_cons.mp hx with rfl | hx
        · exact absurd hxc hc
        · exact ⟨x, hx, hxc⟩
      rw [mergeAnswer_cons_neg b rest t hc]
      show (if b.question_category = c then 1 else 0) + countCat (mergeAnswer rest q t).1 c
          = (if b.question_category = c then 1 else 0) + countCat rest c
      rw [ih hx]

theorem merge_countCat_of_not_mem (l : List InterviewAnswer) (q : InterviewQuestion)
    (t : String) (h : ∀ a ∈ l, a.question_category ≠ q.category) (c : QuestionCategory) :
    countCat (mergeAnswer l q t).1 c
      = countCat l c + (if c = q.category then 1 else 0) := by
  rw [merge_of_not_mem l q t h, countCat_append]
  by_cases hc : c = q.category <;> simp [countCat, freshRecord, hc, eq_comm]

theorem countCat_set (l : List InterviewAnswer) (i : Nat) (a b : InterviewAnswer)
    (hget : l[i]? = some b) (hcat : a.question_category = b.question_category)
    (c : QuestionCategory) : countCat (l.set i a) c = countCat l c := by
  induction l generalizing i with
  | nil => simp at hget
  | cons x rest ih =>
    cases i with
    | zero =>
      simp only [List.getElem?_cons_zero, Option.some_inj] at hget
      subst hget
      simp [List.set, countCat, hcat]
    | succ j =>
      simp only [List.getElem?_cons_succ] at hget
      simp [List.set, countCat, ih j hget]

/-! ### Facts about the catalog lookup -/

theorem gcq_of_ge (s : InterviewState) (h : 8 ≤ s.current_question_index) :
    get_current_question s = .ok none := by
  unfold get_current_question
  rw [if_pos]
  simpa [QUESTIONS_length] using h

theorem gcq_of_lt (s : InterviewState) (h0 : 0 ≤ s.current_question_index)
    (h8 : s.current_question_index < 8) :
    ∃ q, QUESTIONS[s.current_question_index.toNat]? = some q ∧
      get_current_question s = .ok (some q) := by
  have hlt : s.current_question_index.toNat < QUESTIONS.length := by
    rw [QUESTIONS_length]; omega
  have hq : QUESTIONS[s.current_question_index.toNat]?
      = some QUESTIONS[s.current_question_index.toNat] := List.getElem?_eq_getElem hlt
  refine ⟨QUESTIONS[s.current_question_index.toNat], hq, ?_⟩
  unfold get_current_question
  rw [if_neg (by simp only [QUESTIONS_length]; omega)]
  unfold pyListGet
  rw [if_pos h0]
  rw [show QUESTIONS.get? s.current_question_index.toNat
      = some QUESTIONS[s.current_question_index.toNat] from by
    rw [List.get?_eq_getElem?]; exact hq]

theorem gcq_some_lt (s : InterviewState) (q : InterviewQuestion)
    (h : get_current_question s = .ok (some q)) : s.current_question_index < 8 := by
  by_contra hge
  rw [gcq_of_ge s (by omega)] at h
  simp at h

/-! ### Branch characterizations of the turn controller -/

/-- The merged record as it stands after the oracle verdict is written into
it (the `existing_answer` of validate_and_respond). -/
def turnRecord (s : InterviewState) (q : InterviewQuestion) (ans : String)
    (v : OracleDict) : InterviewAnswer :=
  { (mergeAnswer s.answers q ans).2.1 with is_complete := v.is_complete.getD true }

/-- Position of the merged record in the merged answers list. -/
def turnIdx (s : InterviewState) (q : InterviewQuestion) (ans : String) : Nat :=
  (mergeAnswer s.answers q ans).2.2

/-- The state built in the advancing branch of validate_and_respond. -/
def advancedState (s : InterviewState) (q : InterviewQuestion) (ans : String)
    (v : OracleDict) : InterviewState :=
  { s with
    answers := (mergeAnswer s.answers q ans).1.set (turnIdx s q ans) (turnRecord s q ans v),
    current_question_index := s.current_question_index + 1 }

/-- The state built in the follow-up branch of validate_and_respond. -/
def followUpState (s : InterviewState) (q : InterviewQuestion) (ans : String)
    (v : OracleDict) : InterviewState :=
  { s with
    answers :=
      ((mergeAnswer s.answers q ans).1.set (turnIdx s q ans) (turnRecord s q ans v)).set
        (turnIdx s q ans)
        { turnRecord s q ans v with
          follow_up_count := (turnRecord s q ans v).follow_up_count + 1 } }

theorem vr_none (s : InterviewState) (ans : String) (v : OracleDict)
    (h : get_current_question s = .ok none) :
    validate_and_respond s ans v =
      .ok { action := .complete,
            message := "Thank you for completing all the questions!",
            state := s } := by
  unfold validate_and_respond
  rw [h]

theorem vr_advance (s : InterviewState) (ans : String) (v : OracleDict)
    (q : InterviewQuestion) (h : get_current_question s = .ok (some q))
    (hd : ((turnRecord s q ans v).is_complete
        || decide ((turnRecord s q ans v).follow_up_count ≥ max_follow_ups)) = true) :
    validate_and_respond s ans v =
      match get_current_question (advancedState s q ans v) with
      | .error e => .error e
      | .ok (some next_question) =>
        .ok { action := .next_question,
              message := next_question.question_text,
              state := advancedState s q ans v,
              question_category := some next_question.category }
      | .ok none =>
        .ok { action := .complete,
              message := "Thank you for completing all the questions! I\x27m now preparing your feedback.",
              state := { advancedState s q ans v with is_completed := true } } := by
  unfold validate_and_respond
  rw [h]
  show (if ((turnRecord s q ans v).is_complete
        || decide ((turnRecord s q ans v).follow_up_count ≥ max_follow_ups)) = true then _ else _) = _
  rw [if_pos hd]
  exact rfl

theorem vr_followup (s : InterviewState) (ans : String) (v : OracleDict)
    (q : InterviewQuestion) (h : get_current_question s = .ok (some q))
    (hd : ¬ ((turnRecord s q ans v).is_complete
        || decide ((turnRecord s q ans v).follow_up_count ≥ max_follow_ups)) = true) :
    validate_and_respond s ans v =
      .ok { action := .follow_up,
            message := v.follow_up.getD "Could you tell me more about that?",
            state := followUpState s q ans v,
            question_category := some q.category } := by
  unfold validate_and_respond
  rw [h]
  show (if ((turnRecord s q ans v).is_complete
        || decide ((turnRecord s q ans v).follow_up_count ≥ max_follow_ups)) = true then _ else _) = _
  rw [if_neg hd]
  exact rfl

/-! ### The session invariant -/

theorem set_forall {P : InterviewAnswer → Prop} (l : List InterviewAnswer) (i : Nat)
    (a : InterviewAnswer) (hl : ∀ b ∈ l, P b) (ha : P a) : ∀ b ∈ l.set i a, P b :=
  fun b hb => (List.mem_or_eq_of_mem_set hb).elim (hl b) (fun e => e ▸ ha)

theorem countCat_eq_zero_of_not_mem (l : List InterviewAnswer) (c : QuestionCategory)
    (h : ∀ a ∈ l, a.question_category ≠ c) : countCat l c = 0 := by
  induction l with
  | nil => rfl
  | cons b rest ih =>
    have hb := h b (List.mem_cons_self b rest)
    have hrest := fun x hx => h x (List.mem_cons_of_mem b hx)
    simp [countCat, hb, ih hrest]

theorem merge_countCat_le_one (l : List InterviewAnswer) (q : InterviewQuestion) (t : String)
    (h : ∀ c, countCat l c ≤ 1) (c : QuestionCategory) :
    countCat (mergeAnswer l q t).1 c ≤ 1 := by
  by_cases hm : ∃ a ∈ l, a.question_category = q.category
  · rw [merge_countCat_of_mem l q t hm c]
    exact h c
  · push_neg at hm
    rw [merge_countCat_of_not_mem l q t hm c]
    by_cases hc : c = q.category
    · subst hc
      have h0 : countCat l q.category = 0 := countCat_eq_zero_of_not_mem l q.category hm
      simp [h0]
    · simp only [hc, if_false]
      simpa using h c

/-- The invariant the turn controller maintains on session states. -/
def StateInv (s : InterviewState) : Prop :=
  0 ≤ s.current_question_index ∧ s.current_question_index ≤ 8 ∧
  (s.current_question_index = 8 → s.is_completed = true) ∧
  (∀ a ∈ s.answers, a.follow_up_count ≤ 2) ∧
  (∀ c, countCat s.answers c ≤ 1)

theorem merged_fuc_le (s : InterviewState) (q : InterviewQuestion) (ans : String)
    (hfuc : ∀ a ∈ s.answers, a.follow_up_count ≤ 2) :
    (∀ a ∈ (mergeAnswer s.answers q ans).1, a.follow_up_count ≤ 2) ∧
      (mergeAnswer s.answers q ans).2.1.follow_up_count ≤ 2 :=
  merge_forall s.answers q ans (fun _ ha => ha) (by norm_num [freshRecord]) hfuc

theorem advancedState_countCat (s : InterviewState) (q : InterviewQuestion) (ans : String)
    (v : OracleDict) (c : QuestionCategory) :
    countCat (advancedState s q ans v).answers c = countCat (mergeAnswer s.answers q ans).1 c := by
  show countCat ((mergeAnswer s.answers q ans).1.set (turnIdx s q ans) (turnRecord s q ans v)) c
      = countCat (mergeAnswer s.answers q ans).1 c
  exact countCat_set _ _ (turnRecord s q ans v) (mergeAnswer s.answers q ans).2.1
    (merge_get s.answers q ans) rfl c

theorem set_turnIdx_get (s : InterviewState) (q : InterviewQuestion) (ans : String)
    (v : OracleDict) :
    ((mergeAnswer s.answers q ans).1.set (turnIdx s q ans) (turnRecord s q ans v))[turnIdx s q ans]?
      = some (turnRecord s q ans v) := by
  apply List.getElem?_set_eq_of_lt
  exact merge_idx_lt s.answers q ans

theorem followUpState_countCat (s : InterviewState) (q : InterviewQuestion) (ans : String)
    (v : OracleDict) (c : QuestionCategory) :
    countCat (followUpState s q ans v).answers c = countCat (mergeAnswer s.answers q ans).1 c := by
  show countCat (((mergeAnswer s.answers q ans).1.set (turnIdx s q ans)
        (turnRecord s q ans v)).set (turnIdx s q ans)
        { turnRecord s q ans v with
          follow_up_count := (turnRecord s q ans v).follow_up_count + 1 }) c
      = countCat (mergeAnswer s.answers q ans).1 c
  rw [countCat_set _ _
    { turnRecord s q ans v with
      follow_up_count := (turnRecord s q ans v).follow_up_count + 1 }
    (turnRecord s q ans v) (set_turnIdx_get s q ans v) rfl c]
  exact countCat_set _ _ (turnRecord s q ans v) (mergeAnswer s.answers q ans).2.1
    (merge_get s.answers q ans) rfl c

theorem vr_advance_next (s : InterviewState) (ans : String) (v : OracleDict)
    (q nq : InterviewQuestion) (h : get_current_question s = .ok (some q))
    (hd : ((turnRecord s q ans v).is_complete
        || decide ((turnRecord s q ans v).follow_up_count ≥ max_follow_ups)) = true)
    (hnq : get_current_question (advancedState s q ans v) = .ok (some nq)) :
    validate_and_respond s ans v =
      .ok { action := .next_question,
            message := nq.question_text,
            state := advancedState s q ans v,
            question_category := some nq.category } := by
  rw [vr_advance s ans v q h hd, hnq]

theorem vr_advance_complete (s : InterviewState) (ans : String) (v : OracleDict)
    (q : InterviewQuestion) (h : get_current_question s = .ok (some q))
    (hd : ((turnRecord s q ans v).is_complete
        || decide ((turnRecord s q ans v).follow_up_count ≥ max_follow_ups)) = true)
    (hnq : get_current_question (advancedState s q ans v) = .ok none) :
    validate_and_respond s ans v =
      .ok { action := .complete,
            message := "Thank you for completing all the questions! I\x27m now preparing your feedback.",
            state := { advancedState s q ans v with is_completed := true } } := by
  rw [vr_advance s ans v q h hd, hnq]

theorem advancedState_fuc (s : InterviewState) (q : InterviewQuestion) (ans : String)
    (v : OracleDict) (hfuc : ∀ a ∈ s.answers, a.follow_up_count ≤ 2) :
    ∀ a ∈ (advancedState s q ans v).answers, a.follow_up_count ≤ 2 := by
  have hm := merged_fuc_le s q ans hfuc
  show ∀ a ∈ (mergeAnswer s.answers q ans).1.set (turnIdx s q ans) (turnRecord s q ans v),
      a.follow_up_count ≤ 2
  exact set_forall _ _ _ hm.1 hm.2

theorem followUpState_fuc (s : InterviewState) (q : InterviewQuestion) (ans : String)
    (v : OracleDict) (hfuc : ∀ a ∈ s.answers, a.follow_up_count ≤ 2)
    (hlt2 : (mergeAnswer s.answers q ans).2.1.follow_up_count < 2) :
    ∀ a ∈ (followUpState s q ans v).answers, a.follow_up_count ≤ 2 := by
  have hm := merged_fuc_le s q ans hfuc
  show ∀ a ∈ ((mergeAnswer s.answers q ans).1.set (turnIdx s q ans)
        (turnRecord s q ans v)).set (turnIdx s q ans)
        { turnRecord s q ans v with
          follow_up_count := (turnRecord s q ans v).follow_up_count + 1 },
      a.follow_up_count ≤ 2
  apply set_forall
  · exact set_forall _ _ _ hm.1 hm.2
  · show (mergeAnswer s.answers q ans).2.1.follow_up_count + 1 ≤ 2
    omega

theorem inv_init (session_id : String) : StateInv (init_state session_id) := by
  refine ⟨by norm_num [init_state], by norm_num [init_state], ?_, ?_, ?_⟩
  · intro heq
    exact absurd heq (by norm_num [init_state])
  · intro a ha
    simp [init_state] at ha
  · intro c
    show countCat [] c ≤ 1
    norm_num [countCat]

theorem inv_step {s : InterviewState} {ans : String} {v : OracleDict} {r : TurnResult}
    (hs : StateInv s) (h : validate_and_respond s ans v = .ok r) : StateInv r.state := by
  obtain ⟨h0, h8, hcomp, hfuc, hcnt⟩ := hs
  by_cases hge : (8:Int) ≤ s.current_question_index
  · rw [vr_none s ans v (gcq_of_ge s hge)] at h
    injection h with h
    subst h
    exact ⟨h0, h8, hcomp, hfuc, hcnt⟩
  · push_neg at hge
    obtain ⟨q, hq, hgcq⟩ := gcq_of_lt s h0 hge
    by_cases hd : ((turnRecord s q ans v).is_complete
        || decide ((turnRecord s q ans v).follow_up_count ≥ max_follow_ups)) = true
    · by_cases h7 : s.current_question_index + 1 < 8
      · have hadv0 : 0 ≤ (advancedState s q ans v).current_question_index := by
          show 0 ≤ s.current_question_index + 1
          omega
        have hadv8 : (advancedState s q ans v).current_question_index < 8 := h7
        obtain ⟨nq, hnq1, hnq⟩ := gcq_of_lt (advancedState s q ans v) hadv0 hadv8
        rw [vr_advance_next s ans v q nq hgcq hd hnq] at h
        injection h with h
        subst h
        refine ⟨hadv0, ?_, ?_, advancedState_fuc s q ans v hfuc, ?_⟩
        · show s.current_question_index + 1 ≤ 8
          omega
        · intro heq
          have heq' : s.current_question_index + 1 = 8 := heq
          exact absurd heq' (by omega)
        · intro c
          show countCat (advancedState s q ans v).answers c ≤ 1
          rw [advancedState_countCat]
          exact merge_countCat_le_one s.answers q ans hcnt c
      · have h8adv : (8:Int) ≤ (advancedState s q ans v).current_question_index := by
          show (8:Int) ≤ s.current_question_index + 1
          omega
        rw [vr_advance_complete s ans v q hgcq hd (gcq_of_ge _ h8adv)] at h
        injection h with h
        subst h
        refine ⟨?_, ?_, fun _ => rfl, ?_, ?_⟩
        · show 0 ≤ s.current_question_index + 1
          omega
        · show s.current_question_index + 1 ≤ 8
          omega
        · exact advancedState_fuc s q ans v hfuc
        · intro c
          show countCat (advancedState s q ans v).answers c ≤ 1
          rw [advancedState_countCat]
          exact merge_countCat_le_one s.answers q ans hcnt c
    · have hdf : ((turnRecord s q ans v).is_complete
          || decide ((turnRecord s q ans v).follow_up_count ≥ max_follow_ups)) = false := by
        exact Bool.eq_false_iff.mpr hd
      have h2 : ¬ ((turnRecord s q ans v).follow_up_count ≥ max_follow_ups) := by
        have := (Bool.or_eq_false_iff.mp hdf).2
        simpa using this
      have hlt2 : (mergeAnswer s.answers q ans).2.1.follow_up_count < 2 := by
        have h2' : ¬ ((mergeAnswer s.answers q ans).2.1.follow_up_count ≥ max_follow_ups) := h2
        unfold max_follow_ups at h2'
        omega
      rw [vr_followup s ans v q hgcq hd] at h
      injection h with h
      subst h
      refine ⟨h0, h8, ?_, followUpState_fuc s q ans v hfuc hlt2, ?_⟩
      · intro heq
        exact hcomp heq
      · intro c
        show countCat (followUpState s q ans v).answers c ≤ 1
        rw [followUpState_countCat]
        exact merge_countCat_le_one s.answers q ans hcnt c

theorem reachable_inv {s : InterviewState} (h : Reachable s) : StateInv s := by
  induction h with
  | init session_id => exact inv_init session_id
  | step _ hstep ih => exact inv_step ih hstep

theorem gcq_of_neg (s : InterviewState) (hn : s.current_question_index < 0)
    (hge : 0 ≤ s.current_question_index + 8) :
    ∃ q, QUESTIONS[(s.current_question_index + 8).toNat]? = some q ∧
      get_current_question s = .ok (some q) := by
  have hlt : (s.current_question_index + 8).toNat < QUESTIONS.length := by
    rw [QUESTIONS_length]; omega
  have hq : QUESTIONS[(s.current_question_index + 8).toNat]?
      = some QUESTIONS[(s.current_question_index + 8).toNat] := List.getElem?_eq_getElem hlt
  refine ⟨_, hq, ?_⟩
  unfold get_current_question
  rw [if_neg (by simp only [QUESTIONS_length]; omega)]
  unfold pyListGet
  rw [if_neg (not_le.mpr hn)]
  have hlen : ((QUESTIONS.length : Int)) = 8 := by simp [QUESTIONS_length]
  rw [show QUESTIONS.get? (s.current_question_index + (QUESTIONS.length : Int)).toNat
      = some QUESTIONS[(s.current_question_index + 8).toNat] from by
    rw [List.get?_eq_getElem?, hlen]; exact hq]
  rw [decide_eq_true (by rw [hlen]; exact hge)]

theorem gcq_error (s : InterviewState) (h : s.current_question_index + 8 < 0) :
    get_current_question s = .error () := by
  unfold get_current_question
  rw [if_neg (by simp only [QUESTIONS_length]; omega)]
  unfold pyListGet
  rw [if_neg (by omega)]
  have hlen : ((QUESTIONS.length : Int)) = 8 := by simp [QUESTIONS_length]
  rw [show decide (0 ≤ s.current_question_index + (QUESTIONS.length : Int)) = false from by
    rw [hlen]; exact decide_eq_false (by omega)]
  rcases hm : QUESTIONS.get? (s.current_question_index + (QUESTIONS.length : Int)).toNat with _ | q
  · rfl
  · rfl

theorem gcq_ok (s : InterviewState) (h : 0 ≤ s.current_question_index + 8) :
    ∃ o, get_current_question s = .ok o := by
  by_cases hge : (8:Int) ≤ s.current_question_index
  · exact ⟨none, gcq_of_ge s hge⟩
  · by_cases h0 : 0 ≤ s.current_question_index
    · obtain ⟨q, _, hgcq⟩ := gcq_of_lt s h0 (by omega)
      exact ⟨some q, hgcq⟩
    · obtain ⟨q, _, hgcq⟩ := gcq_of_neg s (by omega) h
      exact ⟨some q, hgcq⟩

theorem gcq_some_lower (s : InterviewState) (q : InterviewQuestion)
    (h : get_current_question s = .ok (some q)) : 0 ≤ s.current_question_index + 8 := by
  by_contra hc
  rw [gcq_error s (by omega)] at h
  simp at h

theorem vr_error (s : InterviewState) (ans : String) (v : OracleDict) (e : Unit)
    (h : get_current_question s = .error e) :
    validate_and_respond s ans v = .error e := by
  unfold validate_and_respond
  rw [h]

theorem vr_advance_error (s : InterviewState) (ans : String) (v : OracleDict)
    (q : InterviewQuestion) (e : Unit) (h : get_current_question s = .ok (some q))
    (hd : ((turnRecord s q ans v).is_complete
        || decide ((turnRecord s q ans v).follow_up_count ≥ max_follow_ups)) = true)
    (hnq : get_current_question (advancedState s q ans v) = .error e) :
    validate_and_respond s ans v = .error e := by
  rw [vr_advance s ans v q h hd, hnq]

theorem vr_index_change (s : InterviewState) (ans : String) (v : OracleDict)
    (r : TurnResult) (h : validate_and_respond s ans v = .ok r) :
    r.state.current_question_index = s.current_question_index ∨
    r.state.current_question_index = s.current_question_index + 1 := by
  cases hg : get_current_question s with
  | error e =>
    rw [vr_error s ans v e hg] at h
    simp at h
  | ok o =>
    cases o with
    | none =>
      rw [vr_none s ans v hg] at h
      injection h with h
      subst h
      left
      rfl
    | some q =>
      by_cases hd : ((turnRecord s q ans v).is_complete
          || decide ((turnRecord s q ans v).follow_up_count ≥ max_follow_ups)) = true
      · have hlow := gcq_some_lower s q hg
        have hok : ∃ o, get_current_question (advancedState s q ans v) = .ok o := by
          apply gcq_ok
          show 0 ≤ s.current_question_index + 1 + 8
          omega
        obtain ⟨o, ho⟩ := hok
        cases o with
        | none =>
          rw [vr_advance_complete s ans v q hg hd ho] at h
          injection h with h
          subst h
          right
          rfl
        | some nq =>
          rw [vr_advance_next s ans v q nq hg hd ho] at h
          injection h with h
          subst h
          right
          rfl
      · rw [vr_followup s ans v q hg hd] at h
        injection h with h
        subst h
        left
        rfl

/-! ### Claims -/

/-- C1: on every reachable session state each AnswerRecord satisfies
follow_up_count ≤ 2, and a turn whose merged record already carries
follow_up_count ≥ 2 advances current_question_index by exactly one, no
matter what verdict the oracle dict carries. -/
theorem claim_C1 :
    (∀ s : InterviewState, Reachable s → ∀ a ∈ s.answers, a.follow_up_count ≤ 2) ∧
    (∀ (s : InterviewState) (ans : String) (v : OracleDict) (q : InterviewQuestion),
      get_current_question s = .ok (some q) →
      (mergeAnswer s.answers q ans).2.1.follow_up_count ≥ 2 →
      (validate_and_respond s ans v).map (fun r => r.state.current_question_index)
        = .ok (s.current_question_index + 1)) := by
  constructor
  · intro s hs
    exact (reachable_inv hs).2.2.2.1
  · intro s ans v q hg hfu
    have hd : ((turnRecord s q ans v).is_complete
        || decide ((turnRecord s q ans v).follow_up_count ≥ max_follow_ups)) = true := by
      have hdec : decide ((turnRecord s q ans v).follow_up_count ≥ max_follow_ups) = true := by
        apply decide_eq_true
        show (mergeAnswer s.answers q ans).2.1.follow_up_count ≥ max_follow_ups
        unfold max_follow_ups
        omega
      rw [hdec, Bool.or_true]
    have hlow := gcq_some_lower s q hg
    obtain ⟨o, ho⟩ := gcq_ok (advancedState s q ans v)
      (by show 0 ≤ s.current_question_index + 1 + 8; omega)
    cases o with
    | none => rw [vr_advance_complete s ans v q hg hd ho]; rfl
    | some nq => rw [vr_advance_next s ans v q nq hg hd ho]; rfl

/-- Concrete state used to witness C1: the introduction record has already
received both follow-ups. -/
def c1State : InterviewState :=
  { session_id := "w",
    current_question_index := 0,
    answers := [ { question_category := .INTRODUCTION,
                   question_text := "q",
                   answer_text := "a",
                   follow_up_count := 2,
                   is_complete := false } ] }

/-- A first-turn result on a fresh session under an incomplete verdict,
used to witness C1: one follow-up is issued. -/
def c1Turn : TurnResult :=
  { action := .follow_up,
    message := "f",
    state :=
      { session_id := "w",
        current_question_index := 0,
        answers := [ { question_category := .INTRODUCTION,
                       question_text := "Tell me something about yourself (Include your name, family background, educational background, and whether you are an earning member of the family.)",
                       answer_text := "hello",
                       follow_up_count := 1,
                       is_complete := false } ],
        is_completed := false },
    question_category := some .INTRODUCTION }

theorem claim_C1_witness :
    ({ question_category := .INTRODUCTION,
       question_text := "Tell me something about yourself (Include your name, family background, educational background, and whether you are an earning member of the family.)",
       answer_text := "hello",
       follow_up_count := 1,
       is_complete := false } : InterviewAnswer).follow_up_count ≤ 2 ∧
    (validate_and_respond c1State "more" { is_complete := some false }).map
        (fun r => r.state.current_question_index) = .ok (c1State.current_question_index + 1) :=
  ⟨claim_C1.1 c1Turn.state
      (Reachable.step (Reachable.init "w")
        (show validate_and_respond (init_state "w") "hello"
            { is_complete := some false, follow_up := some "f" } = .ok c1Turn from rfl))
      _ (List.mem_singleton_self _),
   claim_C1.2 c1State "more" { is_complete := some false }
      { category := .INTRODUCTION,
        question_text := "Tell me something about yourself (Include your name, family background, educational background, and whether you are an earning member of the family.)",
        expected_coverage := some ["name", "family background", "educational background", "earning member status"] }
      rfl (by decide)⟩

/-- C2: one turn changes current_question_index by 0 or +1 (so it is
non-decreasing across any sequence of turns), and on every reachable state
it lies in [0, 8], 8 being the catalog size. -/
theorem claim_C2 :
    (∀ (s : InterviewState) (ans : String) (v : OracleDict) (r : TurnResult),
      validate_and_respond s ans v = .ok r →
      r.state.current_question_index = s.current_question_index ∨
      r.state.current_question_index = s.current_question_index + 1) ∧
    (∀ s : InterviewState, Reachable s →
      0 ≤ s.current_question_index ∧
        s.current_question_index ≤ (QUESTIONS.length : Int)) := by
  constructor
  · exact vr_index_change
  · intro s hs
    have h := reachable_inv hs
    have hlen : ((QUESTIONS.length : Int)) = 8 := by simp [QUESTIONS_length]
    exact ⟨h.1, by rw [hlen]; exact h.2.1⟩

/-- State at the catalog end used to witness C2. -/
def c2State : InterviewState :=
  { session_id := "w",
    current_question_index := 8,
    answers := [],
    is_completed := true }

theorem claim_C2_witness :
    (({ action := .complete,
        message := "Thank you for completing all the questions!",
        state := c2State,
        question_category := none } : TurnResult).state.current_question_index
        = c2State.current_question_index ∨
     ({ action := .complete,
        message := "Thank you for completing all the questions!",
        state := c2State,
        question_category := none } : TurnResult).state.current_question_index
        = c2State.current_question_index + 1) ∧
    (0 ≤ (init_state "w2").current_question_index ∧
      (init_state "w2").current_question_index ≤ (QUESTIONS.length : Int)) :=
  ⟨claim_C2.1 c2State "x" {} _ rfl,
   claim_C2.2 (init_state "w2") (Reachable.init "w2")⟩

/-- C3: with no existing record of the category, merging creates exactly one
fresh record (answer_text = raw text, follow_up_count 0, is_complete false)
appended at the end of the answers list; with an existing record, merging
appends the raw text after a single space and creates no new record, so
fragments "A" then "B" yield one record with answer_text "A B"; and a
reachable state never holds more than one record per category. -/
theorem claim_C3 :
    (∀ (l : List InterviewAnswer) (q : InterviewQuestion) (t : String),
      (∀ a ∈ l, a.question_category ≠ q.category) →
      mergeAnswer l q t = (l ++ [freshRecord q t], freshRecord q t, l.length) ∧
      (freshRecord q t).answer_text = t ∧
      (freshRecord q t).follow_up_count = 0 ∧
      (freshRecord q t).is_complete = false) ∧
    (∀ (l l1 l2 : List InterviewAnswer) (b : InterviewAnswer) (q : InterviewQuestion)
        (t : String),
      l = l1 ++ b :: l2 → (∀ a ∈ l1, a.question_category ≠ q.category) →
      b.question_category = q.category →
      (mergeAnswer l q t).1
        = l1 ++ { b with answer_text := b.answer_text ++ " " ++ t } :: l2 ∧
      (mergeAnswer l q t).1.length = l.length) ∧
    (∀ q : InterviewQuestion,
      (mergeAnswer (mergeAnswer [] q "A").1 q "B").1
        = [{ question_category := q.category,
             question_text := q.question_text,
             answer_text := "A B",
             follow_up_count := 0,
             is_complete := false }]) ∧
    (∀ s : InterviewState, Reachable s → ∀ c, countCat s.answers c ≤ 1) := by
  refine ⟨?_, ?_, ?_, ?_⟩
  · intro l q t h
    exact ⟨merge_of_not_mem l q t h, rfl, rfl, rfl⟩
  · intro l l1 l2 b q t hl h1 hb
    subst hl
    constructor
    · induction l1 with
      | nil =>
        show (mergeAnswer (b :: l2) q t).1
            = { b with answer_text := b.answer_text ++ " " ++ t } :: l2
        rw [mergeAnswer_cons_pos b l2 t hb]
      | cons x rest ih =>
        have hx := h1 x (List.mem_cons_self x rest)
        have hrest := fun y hy => h1 y (List.mem_cons_of_mem x hy)
        rw [List.cons_append, mergeAnswer_cons_neg x (rest ++ b :: l2) t hx]
        show x :: (mergeAnswer (rest ++ b :: l2) q t).1
            = x :: (rest ++ { b with answer_text := b.answer_text ++ " " ++ t } :: l2)
        rw [ih hrest]
    · apply merge_length_of_mem
      exact ⟨b, by simp, hb⟩
  · intro q
    rw [mergeAnswer_nil]
    rw [mergeAnswer_cons_pos (freshRecord q "A") [] "B" rfl]
    rfl
  · intro s hs
    exact (reachable_inv hs).2.2.2.2

/-- A question value used to witness C3. -/
def c3Question : InterviewQuestion :=
  { category := .MOTIVATION, question_text := "m" }

theorem claim_C3_witness :
    (mergeAnswer [] c3Question "hi"
        = ([freshRecord c3Question "hi"], freshRecord c3Question "hi", 0) ∧
      (freshRecord c3Question "hi").answer_text = "hi" ∧
      (freshRecord c3Question "hi").follow_up_count = 0 ∧
      (freshRecord c3Question "hi").is_complete = false) ∧
    ((mergeAnswer [freshRecord c3Question "hi"] c3Question "again").1
        = [{ freshRecord c3Question "hi" with
             answer_text := (freshRecord c3Question "hi").answer_text ++ " " ++ "again" }] ∧
      (mergeAnswer [freshRecord c3Question "hi"] c3Question "again").1.length
        = ([freshRecord c3Question "hi"] : List InterviewAnswer).length) ∧
    countCat (init_state "w3").answers .MOTIVATION ≤ 1 := by
  refine ⟨?_, ?_, claim_C3.2.2.2 (init_state "w3") (Reachable.init "w3") .MOTIVATION⟩
  · have h := claim_C3.1 [] c3Question "hi" (by simp)
    simpa using h
  · have h := claim_C3.2.1 [freshRecord c3Question "hi"] [] [] (freshRecord c3Question "hi")
      c3Question "again" rfl (by simp) rfl
    simpa using h

theorem followUpState_lookup (s : InterviewState) (q : InterviewQuestion) (ans : String)
    (v : OracleDict) :
    (followUpState s q ans v).answers[turnIdx s q ans]?
      = some { turnRecord s q ans v with
               follow_up_count := (turnRecord s q ans v).follow_up_count + 1 } := by
  show (((mergeAnswer s.answers q ans).1.set (turnIdx s q ans) (turnRecord s q ans v)).set
      (turnIdx s q ans)
      { turnRecord s q ans v with
        follow_up_count := (turnRecord s q ans v).follow_up_count + 1 })[turnIdx s q ans]?
    = some { turnRecord s q ans v with
             follow_up_count := (turnRecord s q ans v).follow_up_count + 1 }
  apply List.getElem?_set_eq_of_lt
  rw [List.length_set]
  exact merge_idx_lt s.answers q ans

theorem vr_advance_map (s : InterviewState) (ans : String) (v : OracleDict)
    (q : InterviewQuestion) (hg : get_current_question s = .ok (some q))
    (hic : (turnRecord s q ans v).is_complete = true) :
    (validate_and_respond s ans v).map
      (fun r => (r.state.current_question_index,
        r.state.answers[(mergeAnswer s.answers q ans).2.2]?))
      = .ok (s.current_question_index + 1, some (turnRecord s q ans v)) := by
  have hd : ((turnRecord s q ans v).is_complete
      || decide ((turnRecord s q ans v).follow_up_count ≥ max_follow_ups)) = true := by
    rw [hic]
    rfl
  have hlow := gcq_some_lower s q hg
  obtain ⟨o, ho⟩ := gcq_ok (advancedState s q ans v)
    (by show 0 ≤ s.current_question_index + 1 + 8; omega)
  cases o with
  | none =>
    rw [vr_advance_complete s ans v q hg hd ho]
    show Except.ok (s.current_question_index + 1,
        ((mergeAnswer s.answers q ans).1.set (turnIdx s q ans)
          (turnRecord s q ans v))[turnIdx s q ans]?)
      = .ok (s.current_question_index + 1, some (turnRecord s q ans v))
    rw [set_turnIdx_get s q ans v]
  | some nq =>
    rw [vr_advance_next s ans v q nq hg hd ho]
    show Except.ok (s.current_question_index + 1,
        ((mergeAnswer s.answers q ans).1.set (turnIdx s q ans)
          (turnRecord s q ans v))[turnIdx s q ans]?)
      = .ok (s.current_question_index + 1, some (turnRecord s q ans v))
    rw [set_turnIdx_get s q ans v]

/-- C4: on a turn with a current question, an explicit incomplete verdict and
a merged record still under the follow-up ceiling, the controller bumps that
record's follow_up_count by exactly one, leaves the index unchanged, emits a
follow_up action, and the message is the oracle's follow-up text or the
fixed fallback when the dict carries none. -/
theorem claim_C4 :
    ∀ (s : InterviewState) (ans : String) (v : OracleDict) (q : InterviewQuestion),
      get_current_question s = .ok (some q) →
      v.is_complete = some false →
      (mergeAnswer s.answers q ans).2.1.follow_up_count < 2 →
      (validate_and_respond s ans v).map
        (fun r => (r.action, r.state.current_question_index,
          r.state.answers[(mergeAnswer s.answers q ans).2.2]?))
        = .ok (.follow_up, s.current_question_index,
            some { (mergeAnswer s.answers q ans).2.1 with
                   is_complete := false,
                   follow_up_count := (mergeAnswer s.answers q ans).2.1.follow_up_count + 1 }) ∧
      (validate_and_respond s ans v).map (fun r => r.message)
        = .ok (v.follow_up.getD "Could you tell me more about that?") := by
  intro s ans v q hg hv hfu
  have hic : (turnRecord s q ans v).is_complete = false := by
    show v.is_complete.getD true = false
    rw [hv]
    rfl
  have hdec : decide ((turnRecord s q ans v).follow_up_count ≥ max_follow_ups) = false := by
    apply decide_eq_false
    show ¬ ((mergeAnswer s.answers q ans).2.1.follow_up_count ≥ max_follow_ups)
    unfold max_follow_ups
    omega
  have hd : ¬ ((turnRecord s q ans v).is_complete
      || decide ((turnRecord s q ans v).follow_up_count ≥ max_follow_ups)) = true := by
    rw [hic, hdec]
    simp
  have ht : turnRecord s q ans v
      = { (mergeAnswer s.answers q ans).2.1 with is_complete := false } := by
    unfold turnRecord
    rw [hv]
    rfl
  constructor
  · rw [vr_followup s ans v q hg hd]
    show Except.ok (Action.follow_up, s.current_question_index,
        (followUpState s q ans v).answers[turnIdx s q ans]?) = _
    rw [followUpState_lookup s q ans v, ht]
  · rw [vr_followup s ans v q hg hd]
    rfl

/-- Question value used to witness C4 (the catalog's first entry). -/
def c4Question : InterviewQuestion :=
  { category := .INTRODUCTION,
    question_text := "Tell me something about yourself (Include your name, family background, educational background, and whether you are an earning member of the family.)",
    expected_coverage := some ["name", "family background", "educational background", "earning member status"] }

theorem claim_C4_witness :
    ((validate_and_respond (init_state "w4") "hi" { is_complete := some false }).map
        (fun r => (r.action, r.state.current_question_index,
          r.state.answers[(mergeAnswer (init_state "w4").answers c4Question "hi").2.2]?))
        = .ok (.follow_up, (init_state "w4").current_question_index,
            some { (mergeAnswer (init_state "w4").answers c4Question "hi").2.1 with
                   is_complete := false,
                   follow_up_count :=
                     (mergeAnswer (init_state "w4").answers c4Question "hi").2.1.follow_up_count
                       + 1 }) ∧
      (validate_and_respond (init_state "w4") "hi" { is_complete := some false }).map
          (fun r => r.message)
        = .ok (({ is_complete := some false } : OracleDict).follow_up.getD
            "Could you tell me more about that?")) :=
  claim_C4 (init_state "w4") "hi" { is_complete := some false } c4Question rfl rfl (by decide)

/-- C5: when the oracle call raises, the caught exception is replaced by the
fail-open dict (complete verdict, empty follow-up), so the turn marks the
merged record is_complete = true and advances the index by one whenever a
current question exists; the failure never leaves the record indeterminate. -/
theorem claim_C5 :
    ∀ (s : InterviewState) (ans : String) (e : Unit) (q : InterviewQuestion),
      get_current_question s = .ok (some q) →
      (validate_answer_completeness (.error e)).is_complete = some true ∧
      (validate_answer_completeness (.error e)).follow_up = some "" ∧
      (validate_and_respond s ans (validate_answer_completeness (.error e))).map
        (fun r => (r.state.current_question_index,
          r.state.answers[(mergeAnswer s.answers q ans).2.2]?))
        = .ok (s.current_question_index + 1,
            some { (mergeAnswer s.answers q ans).2.1 with is_complete := true }) := by
  intro s ans e q hg
  refine ⟨rfl, rfl, ?_⟩
  have h := vr_advance_map s ans (validate_answer_completeness (.error e)) q hg rfl
  rw [show turnRecord s q ans (validate_answer_completeness (.error e))
      = { (mergeAnswer s.answers q ans).2.1 with is_complete := true } from rfl] at h
  exact h

theorem claim_C5_witness :
    ((validate_answer_completeness (.error ())).is_complete = some true ∧
     (validate_answer_completeness (.error ())).follow_up = some "" ∧
     (validate_and_respond (init_state "w5") "hi" (validate_answer_completeness (.error ()))).map
        (fun r => (r.state.current_question_index,
          r.state.answers[(mergeAnswer (init_state "w5").answers c4Question "hi").2.2]?))
        = .ok ((init_state "w5").current_question_index + 1,
            some { (mergeAnswer (init_state "w5").answers c4Question "hi").2.1 with
                   is_complete := true })) :=
  claim_C5 (init_state "w5") "hi" () c4Question rfl

/-- C6: an advance that moves the index from 7 to 8 emits the complete
action and sets is_completed; over the conversation loop, at most one
feedback-compile call is ever made, and a turn whose action is complete
triggers exactly one feedback-compile call, sets is_completed and stamps
completed_at, after which the loop stops. -/
theorem claim_C6 :
    (∀ (s : InterviewState) (ans : String) (v : OracleDict) (r : TurnResult),
      s.current_question_index = 7 →
      validate_and_respond s ans v = .ok r →
      r.state.current_question_index = 8 →
      r.action = .complete ∧ r.state.is_completed = true) ∧
    (∀ (s : InterviewState) (ts : List (String × OracleDict)) (p : InterviewState × Nat),
      interview_loop s ts = .ok p → p.2 ≤ 1) ∧
    (∀ (s : InterviewState) (ans : String) (v : OracleDict) (r : TurnResult)
        (rest : List (String × OracleDict)),
      ans.isEmpty = false → ans.toList.all (fun c => c.isWhitespace) = false →
      ans.length ≤ 2000 →
      validate_and_respond s ans v = .ok r → r.action = .complete →
      interview_loop s ((ans, v) :: rest)
        = .ok ({ r.state with is_completed := true, completed_at := some () }, 1)) := by
  refine ⟨?_, ?_, ?_⟩
  · intro s ans v r h7 h h8
    obtain ⟨q, hq, hg⟩ := gcq_of_lt s (by omega) (by omega)
    by_cases hd : ((turnRecord s q ans v).is_complete
        || decide ((turnRecord s q ans v).follow_up_count ≥ max_follow_ups)) = true
    · have hge : (8:Int) ≤ (advancedState s q ans v).current_question_index := by
        show (8:Int) ≤ s.current_question_index + 1
        omega
      rw [vr_advance_complete s ans v q hg hd (gcq_of_ge _ hge)] at h
      injection h with h
      subst h
      exact ⟨rfl, rfl⟩
    · rw [vr_followup s ans v q hg hd] at h
      injection h with h
      subst h
      have : s.current_question_index = 8 := h8
      omega
  · intro s ts
    induction ts generalizing s with
    | nil =>
      intro p hp
      simp only [interview_loop] at hp
      injection hp with hp
      subst hp
      norm_num
    | cons hd tl ih =>
      intro p hp
      obtain ⟨ans, v⟩ := hd
      simp only [interview_loop] at hp
      split at hp
      · exact ih s p hp
      · split at hp
        · exact ih s p hp
        · split at hp
          · simp at hp
          · rename_i r hr
            split at hp
            · injection hp with hp
              subst hp
              norm_num
            · split at hp
              · simp at hp
              · rename_i p2 hp2
                injection hp with hp
                subst hp
                exact ih r.state p2 hp2
  · intro s ans v r rest h1 h2 h3 hvr hact
    obtain ⟨ract, rmsg, rstate, rcat⟩ := r
    have hact2 : ract = Action.complete := hact
    subst hact2
    simp only [interview_loop]
    rw [if_neg (by rw [h1, h2]; simp)]
    rw [if_neg (by omega)]
    rw [hvr]

/-- The result of answering the last catalog question completely, used to
witness C6. -/
def c6State : InterviewState :=
  { session_id := "w6", current_question_index := 7, answers := [] }

def c6Result : TurnResult :=
  { action := .complete,
    message := "Thank you for completing all the questions! I\x27m now preparing your feedback.",
    state :=
      { session_id := "w6",
        current_question_index := 8,
        answers := [ { question_category := .AVAILABILITY,
                       question_text := "Are you available to start work immediately, or do you need time to complete other commitments?",
                       answer_text := "done",
                       follow_up_count := 0,
                       is_complete := true } ],
        is_completed := true },
    question_category := none }

theorem claim_C6_witness :
    ((c6Result.action = .complete ∧ c6Result.state.is_completed = true) ∧
     ((init_state "w6b", 0) : InterviewState × Nat).2 ≤ 1 ∧
     interview_loop c6State [("done", { is_complete := some true })]
        = .ok ({ c6Result.state with is_completed := true, completed_at := some () }, 1)) :=
  ⟨claim_C6.1 c6State "done" { is_complete := some true } c6Result rfl rfl rfl,
   claim_C6.2.1 (init_state "w6b") [] (init_state "w6b", 0) rfl,
   claim_C6.2.2 c6State "done" { is_complete := some true } c6Result [] rfl (by decide)
     (by decide) rfl rfl⟩

/-- C7: when the feedback LLM call or its JSON parse raises, generate_feedback
returns the fixed fallback feedback carrying the given session id, with the
deterministic generic assessment, strengths, improvement areas, suggestions
and encouragement texts; no error is surfaced. -/
theorem claim_C7 :
    ∀ (sid : String) (answers : List InterviewAnswer) (e : Unit),
      generate_feedback sid answers (.error e) = generate_fallback_feedback sid answers ∧
      (generate_fallback_feedback sid answers).session_id = sid ∧
      (generate_fallback_feedback sid answers).overall_assessment
        = "Thank you for completing the mock interview. You showed good effort in answering all questions." ∧
      (generate_fallback_feedback sid answers).strengths
        = [ "Completed all interview questions",
            "Showed willingness to participate",
            "Provided thoughtful responses" ] ∧
      (generate_fallback_feedback sid answers).areas_for_improvement
        = [ "Try to provide more detailed responses",
            "Include specific examples when possible",
            "Structure your answers clearly" ] ∧
      (generate_fallback_feedback sid answers).specific_suggestions
        = [ "Practice the STAR method (Situation, Task, Action, Result) for behavioral questions",
            "Prepare specific examples from your experience beforehand",
            "Take a moment to organize your thoughts before answering" ] ∧
      (generate_fallback_feedback sid answers).encouragement
        = "Keep practicing and you will continue to improve. Every interview is a learning opportunity!" ∧
      (generate_fallback_feedback sid answers).category_feedback = [] :=
  fun _ _ _ => ⟨rfl, rfl, rfl, rfl, rfl, rfl, rfl, rfl⟩

theorem gcq_none_ge (s : InterviewState) (h : get_current_question s = .ok none) :
    8 ≤ s.current_question_index := by
  by_contra hc
  push_neg at hc
  by_cases h0 : 0 ≤ s.current_question_index
  · obtain ⟨q, _, hg⟩ := gcq_of_lt s h0 hc
    rw [hg] at h
    simp at h
  · push_neg at h0
    by_cases h8 : 0 ≤ s.current_question_index + 8
    · obtain ⟨q, _, hg⟩ := gcq_of_neg s h0 h8
      rw [hg] at h
      simp at h
    · rw [gcq_error s (by omega)] at h
      simp at h

/-- C8: when the catalog lookup for the current index yields none, the
controller emits the complete action with the state untouched (no merge, no
index change); any reachable state in that situation already has
is_completed = true, and at the conversation-loop level the turn ends with
is_completed = true and completed_at stamped, again without touching the
answers or the index. -/
theorem claim_C8 :
    ∀ (s : InterviewState) (ans : String) (v : OracleDict),
      get_current_question s = .ok none →
      validate_and_respond s ans v
        = .ok { action := .complete,
                message := "Thank you for completing all the questions!",
                state := s } ∧
      (Reachable s → s.is_completed = true) ∧
      (∀ rest : List (String × OracleDict),
        ans.isEmpty = false → ans.toList.all (fun c => c.isWhitespace) = false →
        ans.length ≤ 2000 →
        interview_loop s ((ans, v) :: rest)
          = .ok ({ s with is_completed := true, completed_at := some () }, 1)) := by
  intro s ans v hg
  refine ⟨vr_none s ans v hg, ?_, ?_⟩
  · intro hr
    have hinv := reachable_inv hr
    refine hinv.2.2.1 ?_
    have hge := gcq_none_ge s hg
    have hle := hinv.2.1
    omega
  · intro rest h1 h2 h3
    simp only [interview_loop]
    rw [if_neg (by rw [h1, h2]; simp)]
    rw [if_neg (by omega)]
    rw [vr_none s ans v hg]

def c8Answer (c : QuestionCategory) (t : String) : InterviewAnswer :=
  { question_category := c, question_text := t, answer_text := "ok",
    follow_up_count := 0, is_complete := true }

/-- The state of a session that has answered all 8 questions completely,
used to witness C8; it is reachable in 8 turns from a fresh session. -/
def c8Final : InterviewState :=
  { session_id := "w8",
    current_question_index := 8,
    answers :=
      [ c8Answer .INTRODUCTION "Tell me something about yourself (Include your name, family background, educational background, and whether you are an earning member of the family.)",
        c8Answer .MOTIVATION "What motivated you to pursue a career in this field?",
        c8Answer .INDUSTRY_EXPERIENCE "How many internships or industrial training programs have you completed so far? (Please include the names, durations, and the departments where you were trained.)",
        c8Answer .LEARNINGS "Tell me five things you have learned from the internships",
        c8Answer .STRENGTHS_WEAKNESSES "Tell me two positive qualities about yourself and two areas where you think you need improvement.",
        c8Answer .FUTURE_VISION "Where do you see yourself in five years?",
        c8Answer .UNIQUE_VALUE "Give me a strong reason why I should hire you and how you are different from other candidates.",
        c8Answer .AVAILABILITY "Are you available to start work immediately, or do you need time to complete other commitments?" ],
    is_completed := true }

theorem claim_C8_witness :
    (validate_and_respond c8Final "bye" {}
        = .ok { action := .complete,
                message := "Thank you for completing all the questions!",
                state := c8Final } ∧
     c8Final.is_completed = true ∧
     interview_loop c8Final [("bye", {})]
        = .ok ({ c8Final with is_completed := true, completed_at := some () }, 1)) := by
  have h := claim_C8 c8Final "bye" {} rfl
  refine ⟨h.1, h.2.1 ?_, h.2.2 [] rfl (by decide) (by decide)⟩
  have r0 := Reachable.init "w8"
  have r1 := Reachable.step (a := "ok") (v := { is_complete := some true }) r0 rfl
  have r2 := Reachable.step (a := "ok") (v := { is_complete := some true }) r1 rfl
  have r3 := Reachable.step (a := "ok") (v := { is_complete := some true }) r2 rfl
  have r4 := Reachable.step (a := "ok") (v := { is_complete := some true }) r3 rfl
  have r5 := Reachable.step (a := "ok") (v := { is_complete := some true }) r4 rfl
  have r6 := Reachable.step (a := "ok") (v := { is_complete := some true }) r5 rfl
  have r7 := Reachable.step (a := "ok") (v := { is_complete := some true }) r6 rfl
  have r8 := Reachable.step (a := "ok") (v := { is_complete := some true }) r7 rfl
  exact r8

/-- State with a negative cursor, at which the catalog lookup does not
return none. -/
def c9State : InterviewState := { session_id := "w9", current_question_index := -1 }

/-- C9 counterexample: at integer index -1 (out of range) the lookup does
not return none; Python negative indexing wraps and yields the last catalog
entry, the availability question. -/
theorem claim_C9_counterexample :
    get_current_question c9State ≠ .ok none ∧
    get_current_question c9State
      = .ok (some { category := .AVAILABILITY,
                    question_text := "Are you available to start work immediately, or do you need time to complete other commitments?" }) := by
  constructor
  · intro h
    have h2 : get_current_question c9State
        = .ok (some { category := .AVAILABILITY,
                      question_text := "Are you available to start work immediately, or do you need time to complete other commitments?" }) := rfl
    rw [h2] at h
    simp at h
  · rfl

/-- C9, amended: the catalog holds exactly 8 questions in the fixed category
order; the lookup returns the question at position i for 0 ≤ i < 8 and none
for i ≥ 8; for a negative index it follows Python list semantics instead of
returning none: it wraps to position i+8 for -8 ≤ i < 0 and raises
IndexError for i < -8. -/
theorem claim_C9 :
    QUESTIONS.length = 8 ∧
    QUESTIONS.map (fun q => q.category)
      = [.INTRODUCTION, .MOTIVATION, .INDUSTRY_EXPERIENCE, .LEARNINGS,
         .STRENGTHS_WEAKNESSES, .FUTURE_VISION, .UNIQUE_VALUE, .AVAILABILITY] ∧
    (∀ s : InterviewState, 0 ≤ s.current_question_index → s.current_question_index < 8 →
      get_current_question s = .ok QUESTIONS[s.current_question_index.toNat]? ∧
      (QUESTIONS[s.current_question_index.toNat]?).isSome = true) ∧
    (∀ s : InterviewState, 8 ≤ s.current_question_index →
      get_current_question s = .ok none) ∧
    (∀ s : InterviewState, s.current_question_index < 0 →
      0 ≤ s.current_question_index + 8 →
      get_current_question s = .ok QUESTIONS[(s.current_question_index + 8).toNat]? ∧
      (QUESTIONS[(s.current_question_index + 8).toNat]?).isSome = true) ∧
    (∀ s : InterviewState, s.current_question_index + 8 < 0 →
      get_current_question s = .error ()) := by
  refine ⟨rfl, rfl, ?_, gcq_of_ge, ?_, gcq_error⟩
  · intro s h0 h8
    obtain ⟨q, hq, hg⟩ := gcq_of_lt s h0 h8
    rw [hg, hq]
    simp
  · intro s hn hge
    obtain ⟨q, hq, hg⟩ := gcq_of_neg s hn hge
    rw [hg, hq]
    simp

theorem claim_C9_witness :
    ((get_current_question { session_id := "w9a", current_question_index := 3 }
        = .ok QUESTIONS[(({ session_id := "w9a", current_question_index := 3 } : InterviewState)).current_question_index.toNat]? ∧
      (QUESTIONS[(({ session_id := "w9a", current_question_index := 3 } : InterviewState)).current_question_index.toNat]?).isSome = true) ∧
     get_current_question { session_id := "w9b", current_question_index := 9 } = .ok none ∧
     (get_current_question { session_id := "w9c", current_question_index := -3 }
        = .ok QUESTIONS[((({ session_id := "w9c", current_question_index := -3 } : InterviewState)).current_question_index + 8).toNat]? ∧
      (QUESTIONS[((({ session_id := "w9c", current_question_index := -3 } : InterviewState)).current_question_index + 8).toNat]?).isSome = true) ∧
     get_current_question { session_id := "w9d", current_question_index := -12 } = .error ()) :=
  ⟨claim_C9.2.2.1 { session_id := "w9a", current_question_index := 3 } (by decide) (by decide),
   claim_C9.2.2.2.1 { session_id := "w9b", current_question_index := 9 } (by decide),
   claim_C9.2.2.2.2.1 { session_id := "w9c", current_question_index := -3 } (by decide) (by decide),
   claim_C9.2.2.2.2.2 { session_id := "w9d", current_question_index := -12 } (by decide)⟩

/-- C10: a successfully parsed oracle dict lacking the is_complete key is
treated exactly as a complete verdict: the whole turn result equals the one
produced with is_complete = some true, the record is marked complete, and
the index advances. -/
theorem claim_C10 :
    ∀ (s : InterviewState) (ans : String) (v : OracleDict),
      v.is_complete = none →
      validate_and_respond s ans v
        = validate_and_respond s ans { v with is_complete := some true } ∧
      (∀ q : InterviewQuestion, get_current_question s = .ok (some q) →
        (validate_and_respond s ans v).map
          (fun r => (r.state.current_question_index,
            r.state.answers[(mergeAnswer s.answers q ans).2.2]?))
          = .ok (s.current_question_index + 1,
              some { (mergeAnswer s.answers q ans).2.1 with is_complete := true })) := by
  intro s ans v hv
  have hic : ∀ q, (turnRecord s q ans v).is_complete = true := by
    intro q
    show v.is_complete.getD true = true
    rw [hv]
    rfl
  constructor
  · cases hg : get_current_question s with
    | error e => rw [vr_error s ans v e hg, vr_error s ans _ e hg]
    | ok o =>
      cases o with
      | none => rw [vr_none s ans v hg, vr_none s ans _ hg]
      | some q =>
        have ht : turnRecord s q ans v
            = turnRecord s q ans { v with is_complete := some true } := by
          unfold turnRecord
          rw [hv]
          rfl
        have hd : ((turnRecord s q ans v).is_complete
            || decide ((turnRecord s q ans v).follow_up_count ≥ max_follow_ups)) = true := by
          rw [hic q]
          rfl
        have hd' : ((turnRecord s q ans { v with is_complete := some true }).is_complete
            || decide ((turnRecord s q ans { v with is_complete := some true }).follow_up_count
                ≥ max_follow_ups)) = true := by
          rw [← ht]
          exact hd
        have ha : advancedState s q ans v
            = advancedState s q ans { v with is_complete := some true } := by
          unfold advancedState
          rw [ht]
        obtain ⟨o, ho⟩ := gcq_ok (advancedState s q ans v) (by
          have := gcq_some_lower s q hg
          show 0 ≤ s.current_question_index + 1 + 8
          omega)
        cases o with
        | none =>
          rw [vr_advance_complete s ans v q hg hd ho,
            vr_advance_complete s ans _ q hg hd' (by rw [← ha]; exact ho), ha]
        | some nq =>
          rw [vr_advance_next s ans v q nq hg hd ho,
            vr_advance_next s ans _ q nq hg hd' (by rw [← ha]; exact ho), ha]
  · intro q hg
    have h := vr_advance_map s ans v q hg (hic q)
    rw [show turnRecord s q ans v
        = { (mergeAnswer s.answers q ans).2.1 with is_complete := true } from by
      unfold turnRecord
      rw [hv]
      rfl] at h
    exact h

theorem claim_C10_witness :
    (validate_and_respond (init_state "w10") "hi" { follow_up := some "f" }
        = validate_and_respond (init_state "w10") "hi"
            { ({ follow_up := some "f" } : OracleDict) with is_complete := some true } ∧
     (validate_and_respond (init_state "w10") "hi" { follow_up := some "f" }).map
        (fun r => (r.state.current_question_index,
          r.state.answers[(mergeAnswer (init_state "w10").answers c4Question "hi").2.2]?))
        = .ok ((init_state "w10").current_question_index + 1,
            some { (mergeAnswer (init_state "w10").answers c4Question "hi").2.1 with
                   is_complete := true })) := by
  have h := claim_C10 (init_state "w10") "hi" { follow_up := some "f" } rfl
  exact ⟨h.1, h.2 c4Question rfl⟩

end VocalHire
